import Mathlib

/-!
Verification of the incremental-backup change-detection ledger of
microsoft-365-backup-tools.

The Python sources are shallowly embedded: the SQLite-backed ledger classes
become Lean structures over lists of rows, the SQL statements of each method
become pure functions on those structures, and wall-clock timestamps
(CURRENT_TIMESTAMP and datetime.now) become explicit integer parameters.
SHA-256, used by the sources through hashlib, is implemented executably over
byte lists with arithmetic modulo 2 to the 32.
-/

/-! ## SHA-256 (hashlib.sha256, executable model) -/

namespace SHA256

/-- Truncate to a 32-bit word. -/
def w32 (n : Nat) : Nat := n % 4294967296

/-- Rotate a 32-bit word right by `k` bits. -/
def rotr (k x : Nat) : Nat := (x >>> k) + (x % 2 ^ k) * 2 ^ (32 - k)

def ssig0 (x : Nat) : Nat := (rotr 7 x) ^^^ (rotr 18 x) ^^^ (x >>> 3)

def ssig1 (x : Nat) : Nat := (rotr 17 x) ^^^ (rotr 19 x) ^^^ (x >>> 10)

def bsig0 (x : Nat) : Nat := (rotr 2 x) ^^^ (rotr 13 x) ^^^ (rotr 22 x)

def bsig1 (x : Nat) : Nat := (rotr 6 x) ^^^ (rotr 11 x) ^^^ (rotr 25 x)

def ch (x y z : Nat) : Nat := (x &&& y) ^^^ ((x ^^^ 4294967295) &&& z)

def maj (x y z : Nat) : Nat := (x &&& y) ^^^ (x &&& z) ^^^ (y &&& z)

/-- The 64 SHA-256 round constants (FIPS 180-4), in decimal. -/
def K : List Nat :=
  [1116352408, 1899447441, 3049323471, 3921009573, 961987163,
   1508970993, 2453635748, 2870763221, 3624381080, 310598401,
   607225278, 1426881987, 1925078388, 2162078206, 2614888103,
   3248222580, 3835390401, 4022224774, 264347078, 604807628,
   770255983, 1249150122, 1555081692, 1996064986, 2554220882,
   2821834349, 2952996808, 3210313671, 3336571891, 3584528711,
   113926993, 338241895, 666307205, 773529912, 1294757372,
   1396182291, 1695183700, 1986661051, 2177026350, 2456956037,
   2730485921, 2820302411, 3259730800, 3345764771, 3516065817,
   3600352804, 4094571909, 275423344, 430227734, 506948616,
   659060556, 883997877, 958139571, 1322822218, 1537002063,
   1747873779, 1955562222, 2024104815, 2227730452, 2361852424,
   2428436474, 2756734187, 3204031479, 3329325298]

/-- Initial hash value (FIPS 180-4), in decimal. -/
def H0 : List Nat :=
  [1779033703, 3144134277, 1013904242, 2773480762,
   1359893119, 2600822924, 528734635, 1541459225]

/-- Working registers of the compression function. -/
structure Regs where
  a : Nat
  b : Nat
  c : Nat
  d : Nat
  e : Nat
  f : Nat
  g : Nat
  h : Nat

/-- One compression round, taking the pair of round constant and schedule word. -/
def round (r : Regs) (kw : Nat × Nat) : Regs :=
  let t1 := w32 (r.h + bsig1 r.e + ch r.e r.f r.g + kw.1 + kw.2)
  let t2 := w32 (bsig0 r.a + maj r.a r.b r.c)
  { a := w32 (t1 + t2), b := r.a, c := r.b, d := r.c,
    e := w32 (r.d + t1), f := r.e, g := r.f, h := r.g }

/-- Big-endian bytes of `n`, `k` bytes wide. -/
def bigEndianBytes (k n : Nat) : List Nat :=
  match k with
  | 0 => []
  | k' + 1 => ((n >>> (8 * k')) % 256) :: bigEndianBytes k' n

/-- Group a byte list into big-endian 32-bit words. -/
def toWords : List Nat → List Nat
  | b0 :: b1 :: b2 :: b3 :: rest =>
      (((b0 * 256 + b1) * 256 + b2) * 256 + b3) :: toWords rest
  | _ => []

/-- Extend the 16 chunk words to the 64-entry message schedule. -/
def extendW (w0 : Array Nat) : Array Nat :=
  (List.range 48).foldl
    (fun acc _ =>
      let n := acc.size
      acc.push (w32 (ssig1 (acc.getD (n - 2) 0) + acc.getD (n - 7) 0 +
        ssig0 (acc.getD (n - 15) 0) + acc.getD (n - 16) 0)))
    w0

/-- Compress one 64-byte chunk into the running hash. -/
def compress (hs : List Nat) (chunk : List Nat) : List Nat :=
  let w := extendW (toWords chunk).toArray
  let r0 : Regs :=
    { a := hs.getD 0 0, b := hs.getD 1 0, c := hs.getD 2 0, d := hs.getD 3 0,
      e := hs.getD 4 0, f := hs.getD 5 0, g := hs.getD 6 0, h := hs.getD 7 0 }
  let r := (K.zip w.toList).foldl round r0
  [w32 (hs.getD 0 0 + r.a), w32 (hs.getD 1 0 + r.b), w32 (hs.getD 2 0 + r.c),
   w32 (hs.getD 3 0 + r.d), w32 (hs.getD 4 0 + r.e), w32 (hs.getD 5 0 + r.f),
   w32 (hs.getD 6 0 + r.g), w32 (hs.getD 7 0 + r.h)]

/-- Split a byte list into 64-byte chunks (structural fuel recursion so the
kernel can evaluate it; the fuel is the list length, which suffices because
every step drops at least one element). -/
def chunks64Aux : Nat → List Nat → List (List Nat)
  | _, [] => []
  | 0, _ => []
  | fuel + 1, l => (l.take 64) :: chunks64Aux fuel (l.drop 64)

/-- Split a byte list into 64-byte chunks. -/
def chunks64 (l : List Nat) : List (List Nat) := chunks64Aux l.length l

/-- SHA-256 padding: append 0x80, zeros, and the 64-bit big-endian bit length. -/
def padMessage (msg : List Nat) : List Nat :=
  let z := (119 - msg.length % 64) % 64
  msg ++ 128 :: (List.replicate z 0 ++ bigEndianBytes 8 (msg.length * 8))

/-- The eight 32-bit words of the SHA-256 digest of a byte list. -/
def sha256Words (msg : List Nat) : List Nat :=
  (chunks64 (padMessage msg)).foldl compress H0

def hexDigit (n : Nat) : Char :=
  "0123456789abcdef".toList.getD n '0'

def byteToHex (b : Nat) : List Char := [hexDigit (b / 16), hexDigit (b % 16)]

/-- Hex digest of the SHA-256 of a byte list (hashlib hexdigest). -/
def sha256HexBytes (msg : List Nat) : String :=
  String.mk (((sha256Words msg).map (bigEndianBytes 4)).flatten.map byteToHex).flatten

/-- UTF-8 encoding of one Unicode code point. -/
def utf8Bytes (c : Nat) : List Nat :=
  if c < 128 then [c]
  else if c < 2048 then [192 + c / 64, 128 + c % 64]
  else if c < 65536 then [224 + c / 4096, 128 + (c / 64) % 64, 128 + c % 64]
  else [240 + c / 262144, 128 + (c / 4096) % 64, 128 + (c / 64) % 64, 128 + c % 64]

/-- UTF-8 bytes of a string, as Python `s.encode()`. -/
def strBytes (s : String) : List Nat :=
  (s.toList.map (fun ch => utf8Bytes ch.toNat)).flatten

/-- Hex digest of the SHA-256 of the UTF-8 encoding of a string,
as in `hashlib.sha256(s.encode()).hexdigest()`. -/
def sha256Hex (s : String) : String :=
  sha256HexBytes (strBytes s)

end SHA256

/-! ## Change-detection decisions

The spec's strategies return one of New, Changed, Unchanged; the source
methods return a pair of an is-unchanged flag and the existing record
(absent for a unit never seen). -/

inductive ChangeDecision where
  | New
  | Changed
  | Unchanged
deriving DecidableEq

/-- Read a strategy decision off a source method's return value:
unchanged flag set means Unchanged, otherwise no record means New and a
present record means Changed. -/
def result_decision {α : Type} : Bool × Option α → ChangeDecision
  | (true, _) => ChangeDecision.Unchanged
  | (false, none) => ChangeDecision.New
  | (false, some _) => ChangeDecision.Changed

/-! ## src/checksum_db.py - BackupChecksumDB

Rows of the three SQLite tables become structures; TIMESTAMP columns filled
from CURRENT_TIMESTAMP become an explicit `now : Int` parameter.  The
AUTOINCREMENT id of backup_files becomes the `next_file_id` counter. -/

structure FileRecord where
  id : Nat
  site_id : String
  file_path : String
  file_name : String
  file_size : Int
  last_modified : String
  checksum_sha256 : String
  backup_timestamp : Int
  version : Nat
deriving DecidableEq

structure FileHistoryRow where
  file_id : Nat
  version : Nat
  checksum_sha256 : String
  file_size : Int
  last_modified : String
  backup_timestamp : Int
deriving DecidableEq

structure BackupHistoryRow where
  id : Nat
  backup_type : String
  site_id : Option String
  start_time : Int
  end_time : Option Int
  files_backed_up : Int
  files_skipped : Int
  total_size : Int
  status : String
  error_message : Option String
deriving DecidableEq

structure BackupChecksumDB where
  backup_files : List FileRecord
  backup_history : List BackupHistoryRow
  file_history : List FileHistoryRow
  next_file_id : Nat
deriving DecidableEq

def BackupChecksumDB.empty : BackupChecksumDB :=
  { backup_files := [], backup_history := [], file_history := [], next_file_id := 1 }

/-- `SELECT * FROM backup_files WHERE site_id = ? AND file_path = ?`
(the pair is UNIQUE, so the first match is the row). -/
def BackupChecksumDB.get_file_record (db : BackupChecksumDB)
    (site_id file_path : String) : Option FileRecord :=
  db.backup_files.find? (fun r => r.site_id == site_id && r.file_path == file_path)

/-- `update_file_record`: if a row exists for the key, archive its current
state into file_history, then update it in place bumping version; otherwise
insert a fresh row at version 1.  Returns the file id alongside the new
state. -/
def BackupChecksumDB.update_file_record (db : BackupChecksumDB) (now : Int)
    (site_id file_path file_name : String) (file_size : Int)
    (last_modified checksum : String) : BackupChecksumDB × Nat :=
  match db.get_file_record site_id file_path with
  | some existing =>
      let archived : FileHistoryRow :=
        { file_id := existing.id, version := existing.version,
          checksum_sha256 := existing.checksum_sha256,
          file_size := existing.file_size,
          last_modified := existing.last_modified,
          backup_timestamp := now }
      let db' : BackupChecksumDB :=
        { db with
          file_history := db.file_history ++ [archived],
          backup_files := db.backup_files.map (fun r =>
            if r.id = existing.id then
              { r with file_name := file_name, file_size := file_size,
                       last_modified := last_modified,
                       checksum_sha256 := checksum,
                       backup_timestamp := now, version := r.version + 1 }
            else r) }
      (db', existing.id)
  | none =>
      let inserted : FileRecord :=
        { id := db.next_file_id, site_id := site_id, file_path := file_path,
          file_name := file_name, file_size := file_size,
          last_modified := last_modified, checksum_sha256 := checksum,
          backup_timestamp := now, version := 1 }
      ({ db with backup_files := db.backup_files ++ [inserted],
                 next_file_id := db.next_file_id + 1 },
       db.next_file_id)

/-- `is_file_unchanged`: absent record means needs backup; then size is
compared, then checksum. -/
def BackupChecksumDB.is_file_unchanged (db : BackupChecksumDB)
    (site_id file_path current_checksum : String) (current_size : Int) :
    Bool × Option FileRecord :=
  match db.get_file_record site_id file_path with
  | none => (false, none)
  | some record =>
      if current_size ≠ record.file_size then (false, some record)
      else if current_checksum ≠ record.checksum_sha256 then (false, some record)
      else (true, some record)

/-- `cleanup_old_records`: `horizon` stands for the instant
`datetime('now', '-keep_days days')`.  When at least one backup_history row
is older than the horizon, those rows are deleted and file_history rows
whose file_id no longer occurs in backup_files are deleted; otherwise
nothing is touched. -/
def BackupChecksumDB.cleanup_old_records (db : BackupChecksumDB)
    (horizon : Int) : BackupChecksumDB :=
  if (db.backup_history.filter (fun s => s.start_time < horizon)).length > 0 then
    { db with
      backup_history := db.backup_history.filter (fun s => !(s.start_time < horizon : Bool)),
      file_history := db.file_history.filter (fun h =>
        (db.backup_files.map (fun r => r.id)).contains h.file_id) }
  else db

/-! Export document (`export_to_json`).  The JSON object holds the export
wall-clock timestamp, the database path, all backup_files rows ordered by
(site_id, file_path) and all backup_history rows ordered by start_time
descending.  The SQL ORDER BY is modelled by insertion sort with the
corresponding comparator. -/

def insertSorted {α : Type} (le : α → α → Bool) (x : α) : List α → List α
  | [] => [x]
  | y :: ys => if le x y then x :: y :: ys else y :: insertSorted le x ys

def sortByLe {α : Type} (le : α → α → Bool) (l : List α) : List α :=
  l.foldr (insertSorted le) []

/-- ORDER BY site_id, file_path. -/
def fileOrderLe (r s : FileRecord) : Bool :=
  if r.site_id = s.site_id then r.file_path ≤ s.file_path else r.site_id < s.site_id

/-- ORDER BY start_time DESC. -/
def histOrderLe (r s : BackupHistoryRow) : Bool :=
  s.start_time ≤ r.start_time

structure ExportDoc where
  export_timestamp : Int
  database_path : String
  backup_files : List FileRecord
  backup_history : List BackupHistoryRow
deriving DecidableEq

def BackupChecksumDB.export_to_json (db : BackupChecksumDB) (now : Int)
    (database_path : String) : ExportDoc :=
  { export_timestamp := now, database_path := database_path,
    backup_files := sortByLe fileOrderLe db.backup_files,
    backup_history := sortByLe histOrderLe db.backup_history }

/-! ## src/checksum_db_enhanced.py - EnhancedChecksumDB

Only the fragment the server-tag strategy touches is needed: the
backup_files table with its nullable eTag/cTag/file_size columns,
`get_file_record` (keyed on file_path alone) and
`is_file_unchanged_by_metadata`.  A SQL NULL read back through sqlite3.Row
is Python None; nullable columns are therefore Option-valued, and the
Python `!=` between a possible None and a string is Option equality. -/

structure EnhFileRecord where
  id : Nat
  site_id : String
  file_path : String
  file_name : String
  file_size : Option Int
  last_modified : Option String
  checksum_sha256 : Option String
  eTag : Option String
  cTag : Option String
  backup_timestamp : Int
  version : Nat
deriving DecidableEq

structure EnhancedChecksumDB where
  backup_files : List EnhFileRecord
deriving DecidableEq

/-- `SELECT * FROM backup_files WHERE file_path = ?`. -/
def EnhancedChecksumDB.get_file_record (db : EnhancedChecksumDB)
    (file_path : String) : Option EnhFileRecord :=
  db.backup_files.find? (fun r => r.file_path == file_path)

/-- The `file_meta` dict argument of `is_file_unchanged_by_metadata`.
An outer `none` models a key that is absent from the dict (so `dict.get`
falls back to its default); an inner `none` models a key that is present
but maps to Python None. -/
structure FileMetaDict where
  file_path : String
  eTag : Option (Option String)
  size : Option (Option Int)
deriving DecidableEq

/-- `is_file_unchanged_by_metadata`: reads eTag and size out of the dict
with defaults. Empty string and 0, then compares them against the stored
row with Python `!=`. -/
def EnhancedChecksumDB.is_file_unchanged_by_metadata (db : EnhancedChecksumDB)
    (file_meta : FileMetaDict) : Bool × Option EnhFileRecord :=
  let current_eTag : Option String := file_meta.eTag.getD (some "")
  let current_size : Option Int := file_meta.size.getD (some 0)
  match db.get_file_record file_meta.file_path with
  | none => (false, none)
  | some record =>
      if current_eTag ≠ record.eTag ∨ current_size ≠ record.file_size then
        (false, some record)
      else (true, some record)

/-! ## src/exchange_checksum_db.py - ExchangeChecksumDB -/

structure EmailRecord where
  id : Nat
  user_id : String
  message_id : String
  folder_id : Option String
  folder_name : Option String
  subject : Option String
  sender : Option String
  received_date : Option String
  message_size : Int
  checksum_sha256 : Option String
  backup_timestamp : Int
  version : Nat
  has_attachments : Bool
  attachment_count : Int
  backup_format : String
  backup_path : Option String
deriving DecidableEq

structure EmailHistoryRow where
  email_id : Nat
  version : Nat
  checksum_sha256 : Option String
  message_size : Int
  backup_timestamp : Int
deriving DecidableEq

/-- Row of email_attachments.  The message_id column is declared INTEGER in
the schema, but the one caller in the optimized backup passes the Graph
message-id string, which dynamically-typed SQLite stores as given; the
field is therefore a String here. -/
structure EmailAttachmentRow where
  message_id : String
  attachment_id : String
  attachment_name : String
  attachment_size : Int
  checksum_sha256 : Option String
  backup_timestamp : Int
deriving DecidableEq

structure ExchangeBackupHistoryRow where
  id : Nat
  backup_type : String
  user_id : Option String
  start_time : Int
  end_time : Option Int
  emails_backed_up : Int
  emails_skipped : Int
  attachments_backed_up : Int
  attachments_skipped : Int
  total_size : Int
  status : String
  error_message : Option String
deriving DecidableEq

structure ExchangeChecksumDB where
  email_messages : List EmailRecord
  email_attachments : List EmailAttachmentRow
  exchange_backup_history : List ExchangeBackupHistoryRow
  email_history : List EmailHistoryRow
  next_email_id : Nat
deriving DecidableEq

def ExchangeChecksumDB.empty : ExchangeChecksumDB :=
  { email_messages := [], email_attachments := [],
    exchange_backup_history := [], email_history := [], next_email_id := 1 }

/-- `SELECT * FROM email_messages WHERE user_id = ? AND message_id = ?`. -/
def ExchangeChecksumDB.get_email_record (db : ExchangeChecksumDB)
    (user_id message_id : String) : Option EmailRecord :=
  db.email_messages.find? (fun r => r.user_id == user_id && r.message_id == message_id)

/-- `SELECT * FROM email_messages WHERE user_id = ?`. -/
def ExchangeChecksumDB.get_user_email_records (db : ExchangeChecksumDB)
    (user_id : String) : List EmailRecord :=
  db.email_messages.filter (fun r => r.user_id == user_id)

/-- `update_email_record`: archive-and-update when the (user_id, message_id)
key exists, insert at version 1 otherwise. -/
def ExchangeChecksumDB.update_email_record (db : ExchangeChecksumDB) (now : Int)
    (user_id message_id : String) (folder_id folder_name subject sender
    received_date : Option String) (message_size : Int)
    (checksum : Option String) (has_attachments : Bool)
    (attachment_count : Int) (backup_format : String)
    (backup_path : Option String) : ExchangeChecksumDB × Nat :=
  match db.get_email_record user_id message_id with
  | some existing =>
      let archived : EmailHistoryRow :=
        { email_id := existing.id, version := existing.version,
          checksum_sha256 := existing.checksum_sha256,
          message_size := existing.message_size, backup_timestamp := now }
      let db' : ExchangeChecksumDB :=
        { db with
          email_history := db.email_history ++ [archived],
          email_messages := db.email_messages.map (fun r =>
            if r.id = existing.id then
              { r with folder_id := folder_id, folder_name := folder_name,
                       subject := subject, sender := sender,
                       received_date := received_date,
                       message_size := message_size,
                       checksum_sha256 := checksum,
                       has_attachments := has_attachments,
                       attachment_count := attachment_count,
                       backup_format := backup_format,
                       backup_path := backup_path,
                       backup_timestamp := now, version := r.version + 1 }
            else r) }
      (db', existing.id)
  | none =>
      let inserted : EmailRecord :=
        { id := db.next_email_id, user_id := user_id, message_id := message_id,
          folder_id := folder_id, folder_name := folder_name,
          subject := subject, sender := sender, received_date := received_date,
          message_size := message_size, checksum_sha256 := checksum,
          backup_timestamp := now, version := 1,
          has_attachments := has_attachments,
          attachment_count := attachment_count,
          backup_format := backup_format, backup_path := backup_path }
      ({ db with email_messages := db.email_messages ++ [inserted],
                 next_email_id := db.next_email_id + 1 },
       db.next_email_id)

/-- `update_attachment_record` keyed on (message_id, attachment_id). -/
def ExchangeChecksumDB.update_attachment_record (db : ExchangeChecksumDB)
    (now : Int) (email_id attachment_id attachment_name : String)
    (attachment_size : Int) (checksum : Option String) : ExchangeChecksumDB :=
  match db.email_attachments.find? (fun a =>
      a.message_id == email_id && a.attachment_id == attachment_id) with
  | some existing =>
      { db with email_attachments := db.email_attachments.map (fun a =>
          if a.message_id = existing.message_id ∧ a.attachment_id = existing.attachment_id then
            { a with attachment_name := attachment_name,
                     attachment_size := attachment_size,
                     checksum_sha256 := checksum, backup_timestamp := now }
          else a) }
  | none =>
      { db with email_attachments := db.email_attachments ++
          [{ message_id := email_id, attachment_id := attachment_id,
             attachment_name := attachment_name,
             attachment_size := attachment_size,
             checksum_sha256 := checksum, backup_timestamp := now }] }

/-- `is_email_unchanged`: absent record means needs backup, then the stored
checksum column (possibly NULL) is compared against the candidate string. -/
def ExchangeChecksumDB.is_email_unchanged (db : ExchangeChecksumDB)
    (user_id message_id current_checksum : String) :
    Bool × Option EmailRecord :=
  match db.get_email_record user_id message_id with
  | none => (false, none)
  | some record =>
      if some current_checksum ≠ record.checksum_sha256 then (false, some record)
      else (true, some record)

/-- `cleanup_old_records` of the Exchange ledger, same shape as the
SharePoint one: old exchange_backup_history rows and orphaned email_history
rows are deleted, but only when at least one history row is old. -/
def ExchangeChecksumDB.cleanup_old_records (db : ExchangeChecksumDB)
    (horizon : Int) : ExchangeChecksumDB :=
  if (db.exchange_backup_history.filter (fun s => s.start_time < horizon)).length > 0 then
    { db with
      exchange_backup_history := db.exchange_backup_history.filter
        (fun s => !(s.start_time < horizon : Bool)),
      email_history := db.email_history.filter (fun h =>
        (db.email_messages.map (fun r => r.id)).contains h.email_id) }
  else db

/-! ## src/exchange_incremental_optimized.py - OptimizedExchangeBackup

The Graph HTTP layer is out of scope: each endpoint attempt becomes an
`Option GraphMsg` (none for a non-200 response or request error), and
writing the EML file to disk becomes an `emlCreateOk` flag.  Everything
between those boundaries - validation, checksum choice, the order of
ledger writes relative to EML creation, and the id set difference - is
translated from the source. -/

structure EmailAddress where
  name : String
  address : String
deriving DecidableEq

structure EmailBody where
  contentType : String
  content : String
deriving DecidableEq

/-- The fields of the EmailMetadata dataclass that reach the ledger or the
control flow (recipient lists feed only the EML serialization, which is
modelled by the `emlCreateOk` boundary flag). -/
structure EmailMetadata where
  id : String
  subject : String
  receivedDateTime : String
  size : Int
  hasAttachments : Bool
  from_address : Option EmailAddress
  body : Option EmailBody
  folder_id : Option String
  folder_name : Option String
deriving DecidableEq

/-- A Graph message payload as returned by a successful endpoint attempt;
optional fields model keys the response may omit.  The id is always present
because every query selects it. -/
structure GraphMsg where
  id : String
  subject : Option String
  receivedDateTime : Option String
  size : Option Int
  hasAttachments : Option Bool
  from_address : Option EmailAddress
  body : Option EmailBody
deriving DecidableEq

/-- `EmailMetadata.from_graph_data` with its dict.get defaults. -/
def EmailMetadata.from_graph_data (data : GraphMsg)
    (folder_id folder_name : Option String) : EmailMetadata :=
  { id := data.id,
    subject := data.subject.getD "No Subject",
    receivedDateTime := data.receivedDateTime.getD "",
    size := data.size.getD 0,
    hasAttachments := data.hasAttachments.getD false,
    from_address := data.from_address,
    body := data.body,
    folder_id := folder_id, folder_name := folder_name }

/-- `_get_email_metadata`: tries a list of endpoint variants in order and
returns metadata from the first 200 response; when every attempt fails it
raises instead of fabricating a placeholder. -/
def get_email_metadata (attempts : List (Option GraphMsg)) (message_id : String)
    (folder_id folder_name : Option String) : Except String EmailMetadata :=
  match attempts.findSome? (fun a => a) with
  | some data => Except.ok (EmailMetadata.from_graph_data data folder_id folder_name)
  | none => Except.error ("Cannot access email metadata for " ++ message_id)

/-- `_format_email_address`. -/
def format_email_address : Option EmailAddress → String
  | none => ""
  | some ea =>
      if ea.name ≠ "" ∧ ea.address ≠ "" then
        "\"" ++ ea.name ++ "\" <" ++ ea.address ++ ">"
      else if ea.address ≠ "" then ea.address
      else ""

/-- One attachment as listed by `_get_message_attachments`, together with
the outcome of `_download_attachment` (none when the download failed). -/
structure AttachmentFetch where
  attach_id : String
  name : String
  size : Int
  content : Option (List Nat)
deriving DecidableEq

/-- `_backup_single_email_with_metadata`.  Returns the ledger state after
the call alongside an Except mirroring the raised exception: validation
failure (empty body content from the batch fetch) and EML-creation failure
raise before any ledger write; on success the email record is upserted with
`sha256(message_id)` as its checksum, and attachment records follow. -/
def backup_single_email_with_metadata (now : Int) (user_email : String)
    (email_meta : EmailMetadata) (attachments : List AttachmentFetch)
    (emlCreateOk : Bool) (folder_path : String) (db : ExchangeChecksumDB) :
    ExchangeChecksumDB × Except String Unit :=
  let body_content := match email_meta.body with
    | none => ""
    | some b => b.content
  if body_content = "" then
    (db, Except.error "Email has no body content - batch fetch failed to get email data")
  else if email_meta.subject = "No Subject" ∧ body_content = "" then
    (db, Except.error "Email has no subject and no body - likely batch fetch issue")
  else
    let atts := if email_meta.hasAttachments then attachments else []
    let attachment_data := atts.filterMap (fun a => a.content.map (fun c => (a.attach_id, c)))
    if emlCreateOk = false then
      (db, Except.error "Failed to create EML file")
    else
      let message_size := email_meta.size +
        (attachment_data.map (fun p => (p.2.length : Int))).foldl (fun x y => x + y) 0
      let upd := db.update_email_record now user_email email_meta.id
        email_meta.folder_id email_meta.folder_name (some email_meta.subject)
        (some (format_email_address email_meta.from_address))
        (some email_meta.receivedDateTime) message_size
        (some (SHA256.sha256Hex email_meta.id)) email_meta.hasAttachments
        (atts.length : Int) "eml" (some folder_path)
      let db2 := atts.foldl (fun d a =>
        match a.content with
        | some c => d.update_attachment_record now email_meta.id a.attach_id
            a.name a.size (some (SHA256.sha256HexBytes c))
        | none => d) upd.1
      (db2, Except.ok ())

/-- The per-folder id set difference of `_backup_user_emails`: the already
backed-up ids for the mailbox owner are collected from the ledger, new ids
are the current listing minus that set, skipped ids are the intersection. -/
def backup_user_emails_folder_delta (current_message_ids : Finset String)
    (existing_records : List EmailRecord) : Finset String × Finset String :=
  let existing_message_ids := (existing_records.map (fun r => r.message_id)).toFinset
  (current_message_ids \ existing_message_ids,
   current_message_ids ∩ existing_message_ids)

/-! ## src/rebuild_databases.py

The on-disk tree the engine walks is embedded as data: a SharePoint backup
session is its Graph site id plus the content files of the session
directory in the sorted order the `rglob` traversal yields, each file
carrying its session-relative path, basename, bytes and mtime.  Checksums
are computed from the bytes by the SHA-256 model, so the rebuilt ledger is
a function of the tree and of the wall clock only. -/

def SKIP_FILENAMES : List String :=
  ["site_metadata.json", "drive_metadata.json", "backup_statistics.json",
   "backup_manifest.json", "user_metadata.json"]

def SKIP_SUFFIXES : List String := [".log", ".db", ".db-wal", ".db-shm"]

/-- Python `str.lower` restricted to ASCII, which is all the compared
suffix literals use. -/
def ascii_lower_char (c : Char) : Char :=
  if 'A' ≤ c ∧ c ≤ 'Z' then Char.ofNat (c.toNat + 32) else c

def str_lower (s : String) : String :=
  String.mk (s.toList.map ascii_lower_char)

/-- `pathlib.Path(name).suffix`: the substring from the last dot, empty when
the last dot is the first or last character or there is no dot. -/
def path_suffix (name : String) : String :=
  let cs := name.toList
  match (List.range cs.length).reverse.find? (fun i => cs.getD i ' ' = '.') with
  | none => ""
  | some i => if 0 < i ∧ i < cs.length - 1 then String.mk (cs.drop i) else ""

structure TreeFile where
  rel_path : String
  name : String
  content : List Nat
  mtime : Int
deriving DecidableEq

structure SPSession where
  site_id : String
  site_name : String
  files : List TreeFile
deriving DecidableEq

/-- `rebuild_sharepoint_db`: for every session (in sorted order) and every
content file in it, skip reserved names and suffixes and upsert the file
with its sha256, byte size and mtime.  `isoformat` of the mtime is modelled
by `toString`; both are deterministic injections of the mtime. -/
def rebuild_sharepoint_db (now : Int) (sessions : List SPSession)
    (db : BackupChecksumDB) : BackupChecksumDB :=
  sessions.foldl (fun d sess =>
    sess.files.foldl (fun d2 f =>
      if SKIP_FILENAMES.contains f.name then d2
      else if SKIP_SUFFIXES.contains (str_lower (path_suffix f.name)) then d2
      else (d2.update_file_record now sess.site_id f.rel_path f.name
        (f.content.length : Int) (toString f.mtime)
        (SHA256.sha256HexBytes f.content)).1) d) db

/-! Layout detection (`_session_is_multi_user`). -/

inductive FSNode where
  | file (name : String)
  | dir (name : String) (children : List FSNode)

def FSNode.isDirNode : FSNode → Bool
  | FSNode.file _ => false
  | FSNode.dir _ _ => true

/-- A direct child that is a content file: .eml or .json suffix
(lower-cased) and not one of the reserved metadata names. -/
def is_email_content_file (name : String) : Bool :=
  (str_lower (path_suffix name) == ".eml" || str_lower (path_suffix name) == ".json")
    && !(SKIP_FILENAMES.contains name)

/-- Does a child directory contain a content file directly inside it? -/
def dir_has_direct_email_file (children : List FSNode) : Bool :=
  children.any (fun c => match c with
    | FSNode.file n => is_email_content_file n
    | FSNode.dir _ _ => false)

/-- The loop of `_session_is_multi_user`: walk the direct children in
order; a child directory holding a content file directly means the session
is the new single-user layout (return False at once); otherwise remember
that a child directory was seen and report the old multi-user layout
exactly when one was. -/
def session_is_multi_user_loop : List FSNode → Bool → Bool
  | [], has_any_child_dir => has_any_child_dir
  | c :: rest, has_any_child_dir =>
      match c with
      | FSNode.file _ => session_is_multi_user_loop rest has_any_child_dir
      | FSNode.dir _ cs =>
          if dir_has_direct_email_file cs then false
          else session_is_multi_user_loop rest true

/-- `_session_is_multi_user` on the direct children of a session dir. -/
def session_is_multi_user (session_children : List FSNode) : Bool :=
  session_is_multi_user_loop session_children false

/-! Timestamp-stripped views used to state what the exported ledger
document determines independently of the wall clock. -/

structure FileRecordContent where
  id : Nat
  site_id : String
  file_path : String
  file_name : String
  file_size : Int
  last_modified : String
  checksum_sha256 : String
  version : Nat
deriving DecidableEq

def FileRecord.content (r : FileRecord) : FileRecordContent :=
  { id := r.id, site_id := r.site_id, file_path := r.file_path,
    file_name := r.file_name, file_size := r.file_size,
    last_modified := r.last_modified, checksum_sha256 := r.checksum_sha256,
    version := r.version }

structure ExportDocContent where
  database_path : String
  backup_files : List FileRecordContent
  backup_history : List BackupHistoryRow
deriving DecidableEq

def ExportDoc.content (d : ExportDoc) : ExportDocContent :=
  { database_path := d.database_path,
    backup_files := d.backup_files.map FileRecord.content,
    backup_history := d.backup_history }

/-! ## Strategy specification functions (written from the spec's wording,
to be compared against the source functions) -/

/-- The checksum strategy as the spec words it: New when no record exists;
Changed when the sizes differ; Changed when the checksums differ;
Unchanged otherwise. -/
def checksum_strategy_spec (existing : Option FileRecord)
    (current_checksum : String) (current_size : Int) : ChangeDecision :=
  match existing with
  | none => ChangeDecision.New
  | some r =>
      if current_size ≠ r.file_size then ChangeDecision.Changed
      else if current_checksum ≠ r.checksum_sha256 then ChangeDecision.Changed
      else ChangeDecision.Unchanged

/-- The server-tag strategy as claim C4 words it: a missing tag on either
the candidate or the stored record is compared as if it were the empty
string. -/
def server_tag_claim_spec (existing : Option EnhFileRecord)
    (file_meta : FileMetaDict) : ChangeDecision :=
  match existing with
  | none => ChangeDecision.New
  | some r =>
      let cand_tag : String := (file_meta.eTag.getD (some "")).getD ""
      let stored_tag : String := r.eTag.getD ""
      let current_size : Option Int := file_meta.size.getD (some 0)
      if cand_tag ≠ stored_tag ∨ current_size ≠ r.file_size then
        ChangeDecision.Changed
      else ChangeDecision.Unchanged

/-- The server-tag strategy as the source computes it: the candidate's
missing eTag KEY defaults to the empty string, but a candidate eTag of
Python None and a stored NULL eTag stay None, and None is unequal to every
string including the empty one. -/
def server_tag_code_spec (existing : Option EnhFileRecord)
    (file_meta : FileMetaDict) : ChangeDecision :=
  match existing with
  | none => ChangeDecision.New
  | some r =>
      if file_meta.eTag.getD (some "") ≠ r.eTag
          ∨ file_meta.size.getD (some 0) ≠ r.file_size then
        ChangeDecision.Changed
      else ChangeDecision.Unchanged

/-- C3: the checksum strategy returns New exactly when no record exists for
the (site_id, file_path) key, Changed when the candidate size differs from
the stored file_size, Changed when the candidate checksum differs from the
stored checksum_sha256, and Unchanged otherwise. -/
theorem checksum_strategy_decision (db : BackupChecksumDB)
    (site_id file_path current_checksum : String) (current_size : Int) :
    result_decision (db.is_file_unchanged site_id file_path current_checksum current_size)
      = checksum_strategy_spec (db.get_file_record site_id file_path)
          current_checksum current_size := by
  unfold BackupChecksumDB.is_file_unchanged checksum_strategy_spec
  cases db.get_file_record site_id file_path with
  | none => rfl
  | some r =>
      by_cases h1 : current_size ≠ r.file_size
      · simp [h1, result_decision]
      · by_cases h2 : current_checksum ≠ r.checksum_sha256 <;>
          simp [h1, h2, result_decision]

/-- C4 counterexample: a stored record whose eTag column is NULL and a
candidate metadata dict without an eTag key.  The claim says both tags are
compared as the empty string, giving Unchanged (the sizes agree); the code
turns only the candidate into the empty string, keeps the stored tag as
None, and reports Changed. -/
theorem server_tag_missing_tag_cex :
    result_decision
        (EnhancedChecksumDB.is_file_unchanged_by_metadata
          ⟨[⟨1, "s", "/p", "n", some 0, none, none, none, none, 0, 1⟩]⟩
          ⟨"/p", none, none⟩)
      ≠ server_tag_claim_spec
          (EnhancedChecksumDB.get_file_record
            ⟨[⟨1, "s", "/p", "n", some 0, none, none, none, none, 0, 1⟩]⟩ "/p")
          ⟨"/p", none, none⟩ := by
  decide

/-- C4 amended: an absent record yields New; otherwise the strategy returns
Changed exactly when the candidate eTag (a missing KEY defaulting to the
empty string, a present None staying None) differs from the stored eTag
value (NULL staying None, unequal to every string) or the candidate size
(missing key defaulting to 0) differs from the stored file_size, and
Unchanged otherwise.  A candidate with no eTag key behaves exactly like a
candidate whose eTag is the empty string. -/
theorem server_tag_strategy_decision (db : EnhancedChecksumDB)
    (file_meta : FileMetaDict) :
    result_decision (db.is_file_unchanged_by_metadata file_meta)
      = server_tag_code_spec (db.get_file_record file_meta.file_path) file_meta
    ∧ db.is_file_unchanged_by_metadata { file_meta with eTag := none }
      = db.is_file_unchanged_by_metadata { file_meta with eTag := some (some "") } := by
  constructor
  · unfold EnhancedChecksumDB.is_file_unchanged_by_metadata server_tag_code_spec
    cases db.get_file_record file_meta.file_path with
    | none => rfl
    | some r =>
        by_cases h : file_meta.eTag.getD (some "") ≠ r.eTag
            ∨ file_meta.size.getD (some 0) ≠ r.file_size <;>
          simp [h, result_decision]
  · rfl

/-- A session child that is a directory holding a content file directly
inside it (the signature of the single-user layout). -/
def dir_child_has_direct_email_file : FSNode → Bool
  | FSNode.file _ => false
  | FSNode.dir _ cs => dir_has_direct_email_file cs

lemma session_is_multi_user_loop_spec (l : List FSNode) (acc : Bool) :
    session_is_multi_user_loop l acc =
      (!l.any dir_child_has_direct_email_file && (acc || l.any FSNode.isDirNode)) := by
  induction l generalizing acc with
  | nil => simp [session_is_multi_user_loop]
  | cons c rest ih =>
      cases c with
      | file n =>
          simp [session_is_multi_user_loop, ih, dir_child_has_direct_email_file,
            FSNode.isDirNode]
      | dir n cs =>
          by_cases h : dir_has_direct_email_file cs = true
          · simp [session_is_multi_user_loop, h, dir_child_has_direct_email_file]
          · simp only [Bool.not_eq_true] at h
            simp [session_is_multi_user_loop, h, ih, dir_child_has_direct_email_file,
              FSNode.isDirNode]

/-- C9 counterexample: a session directory with one owner subdirectory that
holds a content file directly inside it.  The claim says the classifier
returns aggregated-layout (True); the code sees a child directory with a
direct content file, which is exactly its signature of the single-user
layout, and returns False. -/
theorem layout_detection_cex :
    ¬ (session_is_multi_user [FSNode.dir "alice" [FSNode.file "mail.eml"]] = true) := by
  decide

/-- C9 amended: the classifier returns aggregated-layout (multi-user)
exactly when the session has at least one child directory and no child
directory holds a content file directly inside it - so content files only
below nested folder subdirectories of the owner directories yield
aggregated-layout, while content files placed directly inside first-level
subdirectories (folder directories with no intermediate owner level) yield
direct-layout.  The two synthetic scenarios instantiate both shapes. -/
theorem layout_detection_amended (session_children : List FSNode) :
    (session_is_multi_user session_children =
      (session_children.any FSNode.isDirNode &&
       !session_children.any dir_child_has_direct_email_file))
    ∧ session_is_multi_user
        [FSNode.dir "alice" [FSNode.dir "Inbox" [FSNode.file "mail.eml"]]] = true
    ∧ session_is_multi_user [FSNode.dir "Inbox" [FSNode.file "mail.eml"]] = false := by
  refine ⟨?_, by decide, by decide⟩
  rw [session_is_multi_user, session_is_multi_user_loop_spec]
  simp [Bool.and_comm]

/-- C5: the per-folder classification of the immutable-identifier strategy.
With current listing C and already-seen set E (the message ids recorded for
the mailbox owner), the new ids are exactly C minus E, the skipped ids are
exactly C intersect E, the two classes partition C (so nothing previously
seen is ever fetched again or classified as changed), the number of new ids
is the size of C minus the number of shared ids, and the scenario with seen
ids 1,2,3 against listing 2,3,4,5 yields new ids 4,5. -/
theorem immutable_id_set_difference (current_message_ids : Finset String)
    (existing_records : List EmailRecord) :
    (∀ m, m ∈ (backup_user_emails_folder_delta current_message_ids existing_records).1 ↔
        m ∈ current_message_ids ∧
          ¬ m ∈ (existing_records.map (fun r => r.message_id)))
    ∧ (∀ m, m ∈ (backup_user_emails_folder_delta current_message_ids existing_records).2 ↔
        m ∈ current_message_ids ∧
          m ∈ (existing_records.map (fun r => r.message_id)))
    ∧ (backup_user_emails_folder_delta current_message_ids existing_records).1 ∪
        (backup_user_emails_folder_delta current_message_ids existing_records).2
        = current_message_ids
    ∧ (backup_user_emails_folder_delta current_message_ids existing_records).1 ∩
        (backup_user_emails_folder_delta current_message_ids existing_records).2 = ∅
    ∧ (backup_user_emails_folder_delta current_message_ids existing_records).1.card
        = current_message_ids.card -
            (current_message_ids ∩
              (existing_records.map (fun r => r.message_id)).toFinset).card
    ∧ (backup_user_emails_folder_delta {"2", "3", "4", "5"}
        [⟨1, "u", "1", none, none, none, none, none, 0, none, 0, 1, false, 0, "eml", none⟩,
         ⟨2, "u", "2", none, none, none, none, none, 0, none, 0, 1, false, 0, "eml", none⟩,
         ⟨3, "u", "3", none, none, none, none, none, 0, none, 0, 1, false, 0, "eml", none⟩]
        = (({"4", "5"} : Finset String), ({"2", "3"} : Finset String))) := by
  refine ⟨?_, ?_, ?_, ?_, ?_, by decide⟩
  · intro m
    simp [backup_user_emails_folder_delta, Finset.mem_sdiff, List.mem_toFinset]
  · intro m
    simp [backup_user_emails_folder_delta, Finset.mem_inter, List.mem_toFinset]
  · simp [backup_user_emails_folder_delta, Finset.sdiff_union_inter]
  · ext m
    simp only [backup_user_emails_folder_delta, Finset.mem_inter, Finset.mem_sdiff,
      Finset.not_mem_empty, iff_false]
    tauto
  · have h := Finset.card_sdiff_add_card_inter current_message_ids
      ((existing_records.map (fun r => r.message_id)).toFinset)
    simp only [backup_user_emails_folder_delta]
    omega

/-! ## Sequences of upserts on a fixed (site_id, file_path) key -/

/-- A Fingerprint for the file-based ledger: the argument tuple a caller
hands to `update_file_record` besides the key. -/
structure SPFingerprint where
  file_name : String
  file_size : Int
  last_modified : String
  checksum : String
deriving DecidableEq

/-- Apply a sequence of fingerprints to one key through
`update_file_record` (the CURRENT_TIMESTAMP of the calls is irrelevant to
the claims about versions and history contents and is fixed at 0). -/
def apply_fingerprints (site_id file_path : String) (fs : List SPFingerprint)
    (db : BackupChecksumDB) : BackupChecksumDB :=
  fs.foldl (fun d f =>
    (d.update_file_record 0 site_id file_path f.file_name f.file_size
      f.last_modified f.checksum).1) db

/-- `find?` commutes with mapping a function that does not disturb the
predicate. -/
lemma find?_map_pred_eq {α : Type} (g : α → α) (p : α → Bool)
    (hp : ∀ x, p (g x) = p x) (l : List α) :
    (l.map g).find? p = (l.find? p).map g := by
  rw [List.find?_map]
  have : p ∘ g = p := funext hp
  rw [this]

/-- `get_file_record` after an upsert that found an existing row returns
that row with the new field values and a bumped version. -/
lemma get_file_record_after_update (db : BackupChecksumDB) (now : Int)
    (site_id file_path file_name : String) (file_size : Int)
    (last_modified checksum : String) (r : FileRecord)
    (hfind : db.get_file_record site_id file_path = some r) :
    (db.update_file_record now site_id file_path file_name file_size
        last_modified checksum).1.get_file_record site_id file_path
      = some { r with file_name := file_name, file_size := file_size,
                      last_modified := last_modified,
                      checksum_sha256 := checksum,
                      backup_timestamp := now, version := r.version + 1 } := by
  have hp : ∀ x : FileRecord,
      ((if x.id = r.id then
          { x with file_name := file_name, file_size := file_size,
                   last_modified := last_modified, checksum_sha256 := checksum,
                   backup_timestamp := now, version := x.version + 1 }
        else x).site_id == site_id
        && (if x.id = r.id then
          { x with file_name := file_name, file_size := file_size,
                   last_modified := last_modified, checksum_sha256 := checksum,
                   backup_timestamp := now, version := x.version + 1 }
        else x).file_path == file_path)
      = (x.site_id == site_id && x.file_path == file_path) := by
    intro x
    by_cases hx : x.id = r.id <;> simp [hx]
  have hfind' : List.find?
      (fun x => x.site_id == site_id && x.file_path == file_path)
      db.backup_files = some r := hfind
  simp only [BackupChecksumDB.update_file_record,
    BackupChecksumDB.get_file_record, hfind']
  rw [find?_map_pred_eq _ _ hp]
  rw [hfind']
  simp

/-- C1 counterexample: applying the fingerprint of the spec's end-to-end
scenario twice from an empty ledger.  The claim says the second identical
call leaves version unchanged and adds no file_history row; the code
returns version 2 after the second call and one archived row, against
version 1 and zero rows after the first. -/
theorem upsert_identical_twice_cex :
    ¬ (((apply_fingerprints "site-1" "/docs/a.txt"
            [⟨"a.txt", 100, "t1", "aaa"⟩, ⟨"a.txt", 100, "t1", "aaa"⟩]
            BackupChecksumDB.empty).get_file_record "site-1" "/docs/a.txt").map
            (fun r => r.version)
          = ((apply_fingerprints "site-1" "/docs/a.txt"
            [⟨"a.txt", 100, "t1", "aaa"⟩]
            BackupChecksumDB.empty).get_file_record "site-1" "/docs/a.txt").map
            (fun r => r.version)
      ∧ (apply_fingerprints "site-1" "/docs/a.txt"
            [⟨"a.txt", 100, "t1", "aaa"⟩, ⟨"a.txt", 100, "t1", "aaa"⟩]
            BackupChecksumDB.empty).file_history.length
        = (apply_fingerprints "site-1" "/docs/a.txt"
            [⟨"a.txt", 100, "t1", "aaa"⟩]
            BackupChecksumDB.empty).file_history.length) := by
  decide

/-- C1 amended: a second `update_file_record` call with field values equal
to the stored record is NOT absorbed by the store: it archives the
pre-update state as one new file_history row and increments version by
one.  Idempotence of an identical observation holds one layer up: the
change-detection gate `is_file_unchanged` answers unchanged for the
identical fingerprint, so a driver that consults it never issues the
second upsert. -/
theorem upsert_identical_second_call (db : BackupChecksumDB) (now : Int)
    (site_id file_path : String) (r : FileRecord)
    (hfind : db.get_file_record site_id file_path = some r) :
    db.is_file_unchanged site_id file_path r.checksum_sha256 r.file_size
      = (true, some r)
    ∧ ((db.update_file_record now site_id file_path r.file_name r.file_size
          r.last_modified r.checksum_sha256).1.get_file_record site_id
          file_path).map (fun s => s.version) = some (r.version + 1)
    ∧ (db.update_file_record now site_id file_path r.file_name r.file_size
          r.last_modified r.checksum_sha256).1.file_history
        = db.file_history ++
            [⟨r.id, r.version, r.checksum_sha256, r.file_size,
              r.last_modified, now⟩] := by
  refine ⟨?_, ?_, ?_⟩
  · simp [BackupChecksumDB.is_file_unchanged, hfind]
  · rw [get_file_record_after_update db now site_id file_path r.file_name
      r.file_size r.last_modified r.checksum_sha256 r hfind]
    rfl
  · simp [BackupChecksumDB.update_file_record, hfind]

/-- Witness for C1 amended at a one-record ledger. -/
theorem upsert_identical_second_call_witness :
    (⟨[⟨1, "s", "/p", "n", 1, "t", "c", 0, 1⟩], [], [], 2⟩ :
        BackupChecksumDB).is_file_unchanged "s" "/p" "c" 1
      = (true, some ⟨1, "s", "/p", "n", 1, "t", "c", 0, 1⟩)
    ∧ (((⟨[⟨1, "s", "/p", "n", 1, "t", "c", 0, 1⟩], [], [], 2⟩ :
          BackupChecksumDB).update_file_record 7 "s" "/p" "n" 1 "t"
          "c").1.get_file_record "s" "/p").map (fun s => s.version)
      = some 2
    ∧ ((⟨[⟨1, "s", "/p", "n", 1, "t", "c", 0, 1⟩], [], [], 2⟩ :
          BackupChecksumDB).update_file_record 7 "s" "/p" "n" 1 "t"
          "c").1.file_history
      = [] ++ [⟨1, 1, "c", 1, "t", 7⟩] :=
  upsert_identical_second_call
    ⟨[⟨1, "s", "/p", "n", 1, "t", "c", 0, 1⟩], [], [], 2⟩ 7 "s" "/p"
    ⟨1, "s", "/p", "n", 1, "t", "c", 0, 1⟩ (by decide)

/-- C7: pruning deletes only backup_history rows older than the retention
horizon and file_history rows whose file_id no longer appears in
backup_files, and leaves every current unit record untouched - stated for
the SharePoint ledger and the structurally identical Exchange ledger.  The
kept history is exactly the filter of the non-old rows (so nothing else is
deleted), and the version-history table is either untouched (when no row
is old) or exactly its orphan-free filter. -/
theorem prune_frame (db : BackupChecksumDB) (edb : ExchangeChecksumDB)
    (horizon : Int) :
    (db.cleanup_old_records horizon).backup_files = db.backup_files
    ∧ (db.cleanup_old_records horizon).backup_history
        = db.backup_history.filter (fun s => !(s.start_time < horizon : Bool))
    ∧ ((db.cleanup_old_records horizon).file_history = db.file_history
       ∨ (db.cleanup_old_records horizon).file_history
           = db.file_history.filter (fun h =>
               (db.backup_files.map (fun r => r.id)).contains h.file_id))
    ∧ (edb.cleanup_old_records horizon).email_messages = edb.email_messages
    ∧ (edb.cleanup_old_records horizon).email_attachments = edb.email_attachments
    ∧ (edb.cleanup_old_records horizon).exchange_backup_history
        = edb.exchange_backup_history.filter
            (fun s => !(s.start_time < horizon : Bool))
    ∧ ((edb.cleanup_old_records horizon).email_history = edb.email_history
       ∨ (edb.cleanup_old_records horizon).email_history
           = edb.email_history.filter (fun h =>
               (edb.email_messages.map (fun r => r.id)).contains h.email_id)) := by
  have hfilter : ∀ {α : Type} (p : α → Bool) (l : List α),
      ¬ ((l.filter p).length > 0) → l.filter (fun a => !(p a)) = l := by
    intro α p l h
    have hnil : l.filter p = [] := List.length_eq_zero.mp (by omega)
    have hall := List.filter_eq_nil_iff.mp hnil
    refine List.filter_eq_self.mpr ?_
    intro a ha
    simp [hall a ha]
  unfold BackupChecksumDB.cleanup_old_records ExchangeChecksumDB.cleanup_old_records
  constructor
  · split <;> rfl
  constructor
  · split
    · rfl
    · exact (hfilter _ _ (by assumption)).symm
  constructor
  · split
    · exact Or.inr rfl
    · exact Or.inl rfl
  constructor
  · split <;> rfl
  constructor
  · split <;> rfl
  constructor
  · split
    · rfl
    · exact (hfilter _ _ (by assumption)).symm
  · split
    · exact Or.inr rfl
    · exact Or.inl rfl

/-- `get_email_record` after `update_email_record` returns a row carrying
exactly the checksum argument of the call. -/
lemma get_email_record_after_update (db : ExchangeChecksumDB) (now : Int)
    (user_id message_id : String) (folder_id folder_name subject sender
    received_date : Option String) (message_size : Int)
    (checksum : Option String) (has_attachments : Bool)
    (attachment_count : Int) (backup_format : String)
    (backup_path : Option String) :
    ((db.update_email_record now user_id message_id folder_id folder_name
        subject sender received_date message_size checksum has_attachments
        attachment_count backup_format backup_path).1.get_email_record
        user_id message_id).map (fun r => r.checksum_sha256)
      = some checksum := by
  cases hg : db.get_email_record user_id message_id with
  | some existing =>
      have hg' : List.find?
          (fun x => x.user_id == user_id && x.message_id == message_id)
          db.email_messages = some existing := hg
      have hp : ∀ x : EmailRecord,
          (((if x.id = existing.id then
              { x with folder_id := folder_id, folder_name := folder_name,
                       subject := subject, sender := sender,
                       received_date := received_date,
                       message_size := message_size,
                       checksum_sha256 := checksum,
                       has_attachments := has_attachments,
                       attachment_count := attachment_count,
                       backup_format := backup_format,
                       backup_path := backup_path,
                       backup_timestamp := now, version := x.version + 1 }
            else x).user_id == user_id)
            && ((if x.id = existing.id then
              { x with folder_id := folder_id, folder_name := folder_name,
                       subject := subject, sender := sender,
                       received_date := received_date,
                       message_size := message_size,
                       checksum_sha256 := checksum,
                       has_attachments := has_attachments,
                       attachment_count := attachment_count,
                       backup_format := backup_format,
                       backup_path := backup_path,
                       backup_timestamp := now, version := x.version + 1 }
            else x).message_id == message_id))
          = (x.user_id == user_id && x.message_id == message_id) := by
        intro x
        by_cases hx : x.id = existing.id <;> simp [hx]
      simp only [ExchangeChecksumDB.update_email_record,
        ExchangeChecksumDB.get_email_record, hg']
      rw [find?_map_pred_eq _ _ hp]
      rw [hg']
      simp
  | none =>
      have hg' : List.find?
          (fun x => x.user_id == user_id && x.message_id == message_id)
          db.email_messages = none := hg
      simp only [ExchangeChecksumDB.update_email_record,
        ExchangeChecksumDB.get_email_record, hg']
      rw [List.find?_append, hg']
      simp

/-- `update_attachment_record` never touches the email_messages table. -/
lemma update_attachment_record_email_messages (db : ExchangeChecksumDB)
    (now : Int) (email_id attachment_id attachment_name : String)
    (attachment_size : Int) (checksum : Option String) :
    (db.update_attachment_record now email_id attachment_id attachment_name
        attachment_size checksum).email_messages = db.email_messages := by
  unfold ExchangeChecksumDB.update_attachment_record
  split <;> rfl

/-- The attachment-recording loop never touches the email_messages table. -/
lemma attachment_fold_email_messages (now : Int) (mid : String)
    (atts : List AttachmentFetch) :
    ∀ d : ExchangeChecksumDB,
    (atts.foldl (fun d a =>
        match a.content with
        | some c => d.update_attachment_record now mid a.attach_id
            a.name a.size (some (SHA256.sha256HexBytes c))
        | none => d) d).email_messages = d.email_messages := by
  induction atts with
  | nil => intro d; rfl
  | cons a rest ih =>
      intro d
      cases hc : a.content with
      | none => simp only [List.foldl_cons, hc]; exact ih d
      | some c =>
          simp only [List.foldl_cons, hc]
          rw [ih]
          exact update_attachment_record_email_messages d now mid a.attach_id
            a.name a.size (some (SHA256.sha256HexBytes c))

/-- `get_email_record` reads only the email_messages table. -/
lemma get_email_record_congr (d1 d2 : ExchangeChecksumDB)
    (h : d1.email_messages = d2.email_messages) (u mid : String) :
    d1.get_email_record u mid = d2.get_email_record u mid := by
  unfold ExchangeChecksumDB.get_email_record
  rw [h]

/-- C6: if a previously unseen unit cannot be fetched, the backup raises a
hard per-unit failure and writes nothing to the ledger.  When every
endpoint attempt fails, `_get_email_metadata` raises instead of returning
placeholder metadata; when `_backup_single_email_with_metadata` raises
(no body content from the batch fetch, or EML creation failed), the ledger
is exactly the ledger from before the call, so an id absent before stays
absent; and a ledger write implies the EML file was created. -/
theorem no_placeholder_records (attempts : List (Option GraphMsg))
    (message_id : String) (folder_id folder_name : Option String) (now : Int)
    (user_email : String) (email_meta : EmailMetadata)
    (attachments : List AttachmentFetch) (emlCreateOk : Bool)
    (folder_path : String) (db : ExchangeChecksumDB) :
    ((∀ a ∈ attempts, a = none) →
      get_email_metadata attempts message_id folder_id folder_name
        = Except.error ("Cannot access email metadata for " ++ message_id))
    ∧ (∀ e, (backup_single_email_with_metadata now user_email email_meta
          attachments emlCreateOk folder_path db).2 = Except.error e →
        (backup_single_email_with_metadata now user_email email_meta
          attachments emlCreateOk folder_path db).1 = db)
    ∧ (∀ e, (backup_single_email_with_metadata now user_email email_meta
          attachments emlCreateOk folder_path db).2 = Except.error e →
        (backup_single_email_with_metadata now user_email email_meta
          attachments emlCreateOk folder_path db).1.get_email_record
          user_email email_meta.id
          = db.get_email_record user_email email_meta.id)
    ∧ ((backup_single_email_with_metadata now user_email email_meta
          attachments emlCreateOk folder_path db).2 = Except.ok () →
        emlCreateOk = true) := by
  have hfst : ∀ e, (backup_single_email_with_metadata now user_email email_meta
      attachments emlCreateOk folder_path db).2 = Except.error e →
      (backup_single_email_with_metadata now user_email email_meta
        attachments emlCreateOk folder_path db).1 = db := by
    intro e
    simp only [backup_single_email_with_metadata]
    by_cases hbc : (match email_meta.body with
        | none => "" | some b => b.content) = ""
    · rw [if_pos hbc]; intro _; rfl
    · rw [if_neg hbc, if_neg (fun h => hbc h.2)]
      by_cases he : emlCreateOk = false
      · rw [if_pos he]; intro _; rfl
      · rw [if_neg he]; intro h; exact absurd h (by simp)
  refine ⟨?_, hfst, ?_, ?_⟩
  · intro hall
    unfold get_email_metadata
    have hnone : attempts.findSome? (fun a => a) = none := by
      rw [List.findSome?_eq_none_iff]
      exact hall
    rw [hnone]
  · intro e he
    rw [hfst e he]
  · simp only [backup_single_email_with_metadata]
    by_cases hbc : (match email_meta.body with
        | none => "" | some b => b.content) = ""
    · rw [if_pos hbc]; intro h; exact absurd h (by simp)
    · rw [if_neg hbc, if_neg (fun h => hbc h.2)]
      by_cases he : emlCreateOk = false
      · rw [if_pos he]; intro h; exact absurd h (by simp)
      · intro _
        revert he
        cases emlCreateOk <;> simp

/-- Witness for C6: empty endpoint attempts and an email whose batch fetch
returned no body, against an empty ledger - the metadata fetch raises, the
per-unit backup raises, and the ledger keeps no trace of the id. -/
theorem no_placeholder_records_witness :
    get_email_metadata [none, none] "AAMkX" none none
      = Except.error ("Cannot access email metadata for " ++ "AAMkX")
    ∧ (backup_single_email_with_metadata 0 "u"
        ⟨"AAMkX", "s", "", 0, false, none, none, none, none⟩ [] true "/b"
        ExchangeChecksumDB.empty).1 = ExchangeChecksumDB.empty
    ∧ (backup_single_email_with_metadata 0 "u"
        ⟨"AAMkX", "s", "", 0, false, none, none, none, none⟩ [] true "/b"
        ExchangeChecksumDB.empty).1.get_email_record "u" "AAMkX"
      = ExchangeChecksumDB.empty.get_email_record "u" "AAMkX" := by
  have h := no_placeholder_records [none, none] "AAMkX" none none 0 "u"
    ⟨"AAMkX", "s", "", 0, false, none, none, none, none⟩ [] true "/b"
    ExchangeChecksumDB.empty
  exact ⟨h.1 (by decide),
    h.2.1 "Email has no body content - batch fetch failed to get email data" (by rfl),
    h.2.2.1 "Email has no body content - batch fetch failed to get email data" (by rfl)⟩

/-- In the success branch the email record seen afterwards is the one the
upsert wrote (the attachment loop does not touch email_messages). -/
lemma backup_single_success_get (now : Int) (user_email folder_path : String)
    (email_meta : EmailMetadata) (attachments : List AttachmentFetch)
    (db : ExchangeChecksumDB)
    (hbc : ¬ ((match email_meta.body with
        | none => "" | some b => b.content) = "")) :
    (backup_single_email_with_metadata now user_email email_meta attachments
        true folder_path db).1.get_email_record user_email email_meta.id
      = ((db.update_email_record now user_email email_meta.id
          email_meta.folder_id email_meta.folder_name (some email_meta.subject)
          (some (format_email_address email_meta.from_address))
          (some email_meta.receivedDateTime)
          (email_meta.size +
            (((if email_meta.hasAttachments then attachments else []).filterMap
                (fun a => a.content.map (fun c => (a.attach_id, c)))).map
              (fun p => (p.2.length : Int))).foldl (fun x y => x + y) 0)
          (some (SHA256.sha256Hex email_meta.id)) email_meta.hasAttachments
          (((if email_meta.hasAttachments then attachments else []).length : Int))
          "eml" (some folder_path)).1).get_email_record user_email
          email_meta.id := by
  have h2 : ¬ (email_meta.subject = "No Subject" ∧
      (match email_meta.body with | none => "" | some b => b.content) = "") :=
    fun h => hbc h.2
  simp only [backup_single_email_with_metadata, if_neg hbc, if_neg h2,
    if_neg (show ¬ (true = false) by simp)]
  exact get_email_record_congr _ _
    (attachment_fold_email_messages now email_meta.id _ _) user_email
    email_meta.id

set_option maxRecDepth 16000 in
/-- C10: the record the optimized Exchange backup writes stores as checksum
the SHA-256 of the message id string alone - independent of any message
content - so `is_email_unchanged` with the candidate checksum recomputed
from a re-observed id always answers unchanged whatever the bodies were,
while identical content under the two distinct ids shown gets two distinct
checksums. -/
theorem email_checksum_depends_only_on_id (now : Int)
    (user_email folder_path : String) (email_meta : EmailMetadata)
    (attachments : List AttachmentFetch) (db : ExchangeChecksumDB)
    (hok : (backup_single_email_with_metadata now user_email email_meta
        attachments true folder_path db).2 = Except.ok ()) :
    ((backup_single_email_with_metadata now user_email email_meta attachments
        true folder_path db).1.get_email_record user_email
        email_meta.id).map (fun r => r.checksum_sha256)
      = some (some (SHA256.sha256Hex email_meta.id))
    ∧ ((backup_single_email_with_metadata now user_email email_meta
        attachments true folder_path db).1.is_email_unchanged user_email
        email_meta.id (SHA256.sha256Hex email_meta.id)).1 = true
    ∧ SHA256.sha256Hex "AAMkAGI1" ≠ SHA256.sha256Hex "AAMkAGI2" := by
  have hbc : ¬ ((match email_meta.body with
      | none => "" | some b => b.content) = "") := by
    intro hb
    simp only [backup_single_email_with_metadata, if_pos hb] at hok
    exact absurd hok (by simp)
  have h1 : ((backup_single_email_with_metadata now user_email email_meta
      attachments true folder_path db).1.get_email_record user_email
      email_meta.id).map (fun r => r.checksum_sha256)
      = some (some (SHA256.sha256Hex email_meta.id)) := by
    rw [backup_single_success_get now user_email folder_path email_meta
      attachments db hbc]
    exact get_email_record_after_update db now user_email email_meta.id
      email_meta.folder_id email_meta.folder_name (some email_meta.subject)
      (some (format_email_address email_meta.from_address))
      (some email_meta.receivedDateTime) _
      (some (SHA256.sha256Hex email_meta.id)) email_meta.hasAttachments _
      "eml" (some folder_path)
  refine ⟨h1, ?_, by decide⟩
  obtain ⟨rec, hrec, hcksum⟩ := Option.map_eq_some'.mp h1
  simp [ExchangeChecksumDB.is_email_unchanged, hrec, hcksum]

set_option maxRecDepth 16000 in
/-- Witness for C10 at a concrete email whose body is present, against the
empty ledger. -/
theorem email_checksum_depends_only_on_id_witness :
    ((backup_single_email_with_metadata 0 "u"
        ⟨"AAMkX", "Hi", "2024", 10, false, none, some ⟨"text", "b"⟩, none, none⟩
        [] true "/b" ExchangeChecksumDB.empty).1.get_email_record "u"
        "AAMkX").map (fun r => r.checksum_sha256)
      = some (some (SHA256.sha256Hex "AAMkX"))
    ∧ ((backup_single_email_with_metadata 0 "u"
        ⟨"AAMkX", "Hi", "2024", 10, false, none, some ⟨"text", "b"⟩, none, none⟩
        [] true "/b" ExchangeChecksumDB.empty).1.is_email_unchanged "u"
        "AAMkX" (SHA256.sha256Hex "AAMkX")).1 = true
    ∧ SHA256.sha256Hex "AAMkAGI1" ≠ SHA256.sha256Hex "AAMkAGI2" :=
  email_checksum_depends_only_on_id 0 "u" "/b"
    ⟨"AAMkX", "Hi", "2024", 10, false, none, some ⟨"text", "b"⟩, none, none⟩
    [] ExchangeChecksumDB.empty (by rfl)

/-! ## Monotonic versioning machinery: the closed form of repeated upserts
on one key (all at CURRENT_TIMESTAMP 0, matching `apply_fingerprints`). -/

/-- Effect of one archiving upsert on the current record. -/
def sp_step (f : SPFingerprint) (r : FileRecord) : FileRecord :=
  { r with file_name := f.file_name, file_size := f.file_size,
           last_modified := f.last_modified, checksum_sha256 := f.checksum,
           backup_timestamp := 0, version := r.version + 1 }

/-- The file_history row archiving the current record. -/
def sp_archive (r : FileRecord) : FileHistoryRow :=
  ⟨r.id, r.version, r.checksum_sha256, r.file_size, r.last_modified, 0⟩

/-- The record after a sequence of archiving upserts. -/
def sp_run_record (r : FileRecord) : List SPFingerprint → FileRecord
  | [] => r
  | f :: rest => sp_run_record (sp_step f r) rest

/-- The history rows appended by a sequence of archiving upserts. -/
def sp_run_archives (r : FileRecord) : List SPFingerprint → List FileHistoryRow
  | [] => []
  | f :: rest => sp_archive r :: sp_run_archives (sp_step f r) rest

lemma sp_run_record_key (r : FileRecord) (fs : List SPFingerprint) :
    (sp_run_record r fs).id = r.id ∧ (sp_run_record r fs).site_id = r.site_id
    ∧ (sp_run_record r fs).file_path = r.file_path
    ∧ (sp_run_record r fs).version = r.version + fs.length := by
  induction fs generalizing r with
  | nil => simp [sp_run_record]
  | cons f rest ih =>
      have h := ih (sp_step f r)
      refine ⟨h.1, h.2.1, h.2.2.1, ?_⟩
      rw [sp_run_record, h.2.2.2]
      simp [sp_step]
      omega

lemma sp_run_archives_length (r : FileRecord) (fs : List SPFingerprint) :
    (sp_run_archives r fs).length = fs.length := by
  induction fs generalizing r with
  | nil => rfl
  | cons f rest ih => simp [sp_run_archives, ih (sp_step f r)]

lemma sp_run_archives_file_id (r : FileRecord) (fs : List SPFingerprint) :
    (sp_run_archives r fs).all (fun hrow => hrow.file_id == r.id) = true := by
  induction fs generalizing r with
  | nil => rfl
  | cons f rest ih =>
      simp only [sp_run_archives, List.all_cons, Bool.and_eq_true]
      refine ⟨by simp [sp_archive], ?_⟩
      have := ih (sp_step f r)
      simpa [sp_step] using this

lemma sp_run_archives_map (r : FileRecord) (fs : List SPFingerprint) :
    (sp_run_archives r fs).map
        (fun hrow => (hrow.checksum_sha256, hrow.file_size, hrow.last_modified))
      = ((r.checksum_sha256, r.file_size, r.last_modified) ::
          fs.map (fun f => (f.checksum, f.file_size, f.last_modified))).dropLast := by
  induction fs generalizing r with
  | nil => simp [sp_run_archives]
  | cons f rest ih =>
      simp only [sp_run_archives, List.map_cons]
      rw [ih (sp_step f r)]
      have hstep : ((sp_step f r).checksum_sha256, (sp_step f r).file_size,
          (sp_step f r).last_modified) = (f.checksum, f.file_size, f.last_modified) := rfl
      rw [hstep]
      have hne2 : ((f.checksum, f.file_size, f.last_modified) ::
          List.map (fun f => (f.checksum, f.file_size, f.last_modified)) rest)
          ≠ [] := by simp
      rw [List.dropLast_cons_of_ne_nil hne2]
      rfl

/-- Fold invariant: from a ledger holding exactly one record for the key,
applying fingerprints keeps exactly one record - the stepped one - and
appends exactly the archive rows. -/
lemma apply_fingerprints_single (site_id file_path : String)
    (fs : List SPFingerprint) :
    ∀ (db : BackupChecksumDB) (r : FileRecord),
      db.backup_files = [r] → r.site_id = site_id → r.file_path = file_path →
      (apply_fingerprints site_id file_path fs db).backup_files
          = [sp_run_record r fs]
      ∧ (apply_fingerprints site_id file_path fs db).file_history
          = db.file_history ++ sp_run_archives r fs := by
  induction fs with
  | nil =>
      intro db r h1 h2 h3
      exact ⟨by simp [apply_fingerprints, sp_run_record, h1],
        by simp [apply_fingerprints, sp_run_archives]⟩
  | cons f rest ih =>
      intro db r h1 h2 h3
      have hget : db.get_file_record site_id file_path = some r := by
        unfold BackupChecksumDB.get_file_record
        rw [h1]
        simp [List.find?, h2, h3]
      have hupd : (db.update_file_record 0 site_id file_path f.file_name
          f.file_size f.last_modified f.checksum).1
          = { db with file_history := db.file_history ++ [sp_archive r],
                      backup_files := [sp_step f r] } := by
        simp only [BackupChecksumDB.update_file_record, hget]
        rw [h1]
        simp [sp_step, sp_archive]
      have hrw : apply_fingerprints site_id file_path (f :: rest) db
          = apply_fingerprints site_id file_path rest
              ((db.update_file_record 0 site_id file_path f.file_name
                f.file_size f.last_modified f.checksum).1) := rfl
      rw [hrw, hupd]
      have hres := ih
        { db with file_history := db.file_history ++ [sp_archive r],
                  backup_files := [sp_step f r] }
        (sp_step f r) rfl (by simp [sp_step, h2]) (by simp [sp_step, h3])
      refine ⟨?_, ?_⟩
      · rw [hres.1]
        rfl
      · rw [hres.2]
        simp [sp_run_archives]

/-- C2: applying N pairwise-distinct fingerprints to one key starting from
the empty ledger leaves one record at version N (with id 1), and
file_history holds exactly N-1 archived rows for that record, the j-th row
carrying the checksum, size and last_modified of the j-th fingerprint,
which is the record state immediately before the update that archived it. -/
theorem monotonic_versioning (site_id file_path : String)
    (fs : List SPFingerprint) (hne : fs ≠ [])
    (hdist : List.Pairwise (fun f g => f ≠ g) fs) :
    (((apply_fingerprints site_id file_path fs
        BackupChecksumDB.empty).get_file_record site_id file_path).map
        (fun r => (r.id, r.version)) = some (1, fs.length))
    ∧ (apply_fingerprints site_id file_path fs
        BackupChecksumDB.empty).file_history.length = fs.length - 1
    ∧ (apply_fingerprints site_id file_path fs
        BackupChecksumDB.empty).file_history.map
        (fun hrow => (hrow.checksum_sha256, hrow.file_size, hrow.last_modified))
      = (fs.map (fun f => (f.checksum, f.file_size, f.last_modified))).dropLast
    ∧ (apply_fingerprints site_id file_path fs
        BackupChecksumDB.empty).file_history.all
        (fun hrow => hrow.file_id == 1) = true := by
  cases fs with
  | nil => exact absurd rfl hne
  | cons f0 rest =>
      have hrw : apply_fingerprints site_id file_path (f0 :: rest)
          BackupChecksumDB.empty
          = apply_fingerprints site_id file_path rest
              ⟨[⟨1, site_id, file_path, f0.file_name, f0.file_size,
                 f0.last_modified, f0.checksum, 0, 1⟩], [], [], 2⟩ := rfl
      obtain ⟨hbf, hfh⟩ := apply_fingerprints_single site_id file_path rest
        ⟨[⟨1, site_id, file_path, f0.file_name, f0.file_size,
           f0.last_modified, f0.checksum, 0, 1⟩], [], [], 2⟩
        ⟨1, site_id, file_path, f0.file_name, f0.file_size,
         f0.last_modified, f0.checksum, 0, 1⟩ rfl rfl rfl
      have hkey := sp_run_record_key
        ⟨1, site_id, file_path, f0.file_name, f0.file_size,
         f0.last_modified, f0.checksum, 0, 1⟩ rest
      have hget : (apply_fingerprints site_id file_path (f0 :: rest)
          BackupChecksumDB.empty).get_file_record site_id file_path
          = some (sp_run_record
              ⟨1, site_id, file_path, f0.file_name, f0.file_size,
               f0.last_modified, f0.checksum, 0, 1⟩ rest) := by
        rw [hrw]
        unfold BackupChecksumDB.get_file_record
        rw [hbf]
        simp [List.find?, hkey.2.1, hkey.2.2.1]
      refine ⟨?_, ?_, ?_, ?_⟩
      · rw [hget]
        simp only [Option.map_some', Option.some.injEq, Prod.mk.injEq]
        refine ⟨hkey.1, ?_⟩
        rw [hkey.2.2.2]
        show 1 + rest.length = rest.length + 1
        omega
      · rw [hrw, hfh]
        simp [sp_run_archives_length]
      · rw [hrw, hfh]
        simp only [List.nil_append]
        rw [sp_run_archives_map]
        rfl
      · rw [hrw, hfh]
        simp only [List.nil_append]
        exact sp_run_archives_file_id _ rest

/-- Witness for C2 with two distinct fingerprints. -/
theorem monotonic_versioning_witness :
    (((apply_fingerprints "s" "/p" [⟨"a", 1, "t", "x"⟩, ⟨"a", 2, "t", "y"⟩]
        BackupChecksumDB.empty).get_file_record "s" "/p").map
        (fun r => (r.id, r.version)) = some (1, 2))
    ∧ (apply_fingerprints "s" "/p" [⟨"a", 1, "t", "x"⟩, ⟨"a", 2, "t", "y"⟩]
        BackupChecksumDB.empty).file_history.length = 2 - 1
    ∧ (apply_fingerprints "s" "/p" [⟨"a", 1, "t", "x"⟩, ⟨"a", 2, "t", "y"⟩]
        BackupChecksumDB.empty).file_history.map
        (fun hrow => (hrow.checksum_sha256, hrow.file_size, hrow.last_modified))
      = (([⟨"a", 1, "t", "x"⟩, ⟨"a", 2, "t", "y"⟩] : List SPFingerprint).map
          (fun f => (f.checksum, f.file_size, f.last_modified))).dropLast
    ∧ (apply_fingerprints "s" "/p" [⟨"a", 1, "t", "x"⟩, ⟨"a", 2, "t", "y"⟩]
        BackupChecksumDB.empty).file_history.all
        (fun hrow => hrow.file_id == 1) = true :=
  monotonic_versioning "s" "/p" [⟨"a", 1, "t", "x"⟩, ⟨"a", 2, "t", "y"⟩]
    (by decide) (by decide)

/-! ## Rebuild determinism machinery -/

lemma update_file_record_backup_history (db : BackupChecksumDB) (now : Int)
    (site_id file_path file_name : String) (file_size : Int)
    (last_modified checksum : String) :
    (db.update_file_record now site_id file_path file_name file_size
        last_modified checksum).1.backup_history = db.backup_history := by
  unfold BackupChecksumDB.update_file_record
  split <;> rfl

lemma rebuild_files_backup_history (now : Int) (sess : SPSession) :
    ∀ d : BackupChecksumDB,
    (sess.files.foldl (fun d2 f =>
        if SKIP_FILENAMES.contains f.name then d2
        else if SKIP_SUFFIXES.contains (str_lower (path_suffix f.name)) then d2
        else (d2.update_file_record now sess.site_id f.rel_path f.name
          (f.content.length : Int) (toString f.mtime)
          (SHA256.sha256HexBytes f.content)).1) d).backup_history
      = d.backup_history := by
  induction sess.files with
  | nil => intro d; rfl
  | cons f rest ih =>
      intro d
      simp only [List.foldl_cons]
      rw [ih]
      split
      · rfl
      · split
        · rfl
        · exact update_file_record_backup_history d now sess.site_id
            f.rel_path f.name (f.content.length : Int) (toString f.mtime)
            (SHA256.sha256HexBytes f.content)

lemma rebuild_sharepoint_db_backup_history (now : Int)
    (sessions : List SPSession) :
    ∀ db : BackupChecksumDB,
    (rebuild_sharepoint_db now sessions db).backup_history
      = db.backup_history := by
  induction sessions with
  | nil => intro db; rfl
  | cons sess rest ih =>
      intro db
      show (rebuild_sharepoint_db now rest _).backup_history = db.backup_history
      rw [ih]
      exact rebuild_files_backup_history now sess db

lemma find?_congr_map_content (p : FileRecord → Bool)
    (q : FileRecordContent → Bool) (hpq : ∀ r, p r = q r.content) :
    ∀ (l₁ l₂ : List FileRecord),
      l₁.map FileRecord.content = l₂.map FileRecord.content →
      (l₁.find? p).map FileRecord.content
        = (l₂.find? p).map FileRecord.content := by
  intro l₁
  induction l₁ with
  | nil =>
      intro l₂ h
      cases l₂ with
      | nil => rfl
      | cons b bs => simp at h
  | cons a as ih =>
      intro l₂ h
      cases l₂ with
      | nil => simp at h
      | cons b bs =>
          simp only [List.map_cons, List.cons.injEq] at h
          obtain ⟨hab, hrest⟩ := h
          have hpab : p a = p b := by rw [hpq a, hpq b, hab]
          cases hpa : p a with
          | true =>
              rw [List.find?_cons_of_pos _ hpa,
                List.find?_cons_of_pos _ (hpab ▸ hpa)]
              simp [hab]
          | false =>
              rw [List.find?_cons_of_neg _ (by simp [hpa]),
                List.find?_cons_of_neg _ (by simp [← hpab, hpa])]
              exact ih bs hrest

/-- The timestamp-independent effect of an archiving update on one stored
row's content. -/
def content_update (file_name : String) (file_size : Int)
    (last_modified checksum : String) (eid : Nat)
    (c : FileRecordContent) : FileRecordContent :=
  if c.id = eid then
    { c with file_name := file_name, file_size := file_size,
             last_modified := last_modified, checksum_sha256 := checksum,
             version := c.version + 1 }
  else c

lemma content_of_update_map (now : Int) (file_name : String) (file_size : Int)
    (last_modified checksum : String) (eid : Nat) (x : FileRecord) :
    (if x.id = eid then
        { x with file_name := file_name, file_size := file_size,
                 last_modified := last_modified, checksum_sha256 := checksum,
                 backup_timestamp := now, version := x.version + 1 }
      else x).content
      = content_update file_name file_size last_modified checksum eid
          x.content := by
  by_cases hx : x.id = eid <;>
    simp [content_update, FileRecord.content, hx]

lemma update_content_congr (now₁ now₂ : Int) (db₁ db₂ : BackupChecksumDB)
    (hbf : db₁.backup_files.map FileRecord.content
      = db₂.backup_files.map FileRecord.content)
    (hnext : db₁.next_file_id = db₂.next_file_id)
    (site_id file_path file_name : String) (file_size : Int)
    (last_modified checksum : String) :
    ((db₁.update_file_record now₁ site_id file_path file_name file_size
        last_modified checksum).1.backup_files.map FileRecord.content
      = (db₂.update_file_record now₂ site_id file_path file_name file_size
        last_modified checksum).1.backup_files.map FileRecord.content)
    ∧ (db₁.update_file_record now₁ site_id file_path file_name file_size
        last_modified checksum).1.next_file_id
      = (db₂.update_file_record now₂ site_id file_path file_name file_size
        last_modified checksum).1.next_file_id := by
  have hpq : ∀ r : FileRecord,
      (r.site_id == site_id && r.file_path == file_path)
      = (r.content.site_id == site_id && r.content.file_path == file_path) :=
    fun r => rfl
  have hfind := find?_congr_map_content
    (fun r => r.site_id == site_id && r.file_path == file_path)
    (fun c => c.site_id == site_id && c.file_path == file_path)
    hpq db₁.backup_files db₂.backup_files hbf
  cases h₁ : db₁.backup_files.find?
      (fun r => r.site_id == site_id && r.file_path == file_path) with
  | none =>
      have h₂ : db₂.backup_files.find?
          (fun r => r.site_id == site_id && r.file_path == file_path)
          = none := by
        rw [h₁] at hfind
        cases h₂ : db₂.backup_files.find?
            (fun r => r.site_id == site_id && r.file_path == file_path) with
        | none => rfl
        | some b => rw [h₂] at hfind; simp at hfind
      simp only [BackupChecksumDB.update_file_record,
        BackupChecksumDB.get_file_record, h₁, h₂]
      refine ⟨?_, by simp [hnext]⟩
      simp only [List.map_append, hbf, List.map_cons, List.map_nil]
      rw [hnext]
      rfl
  | some e₁ =>
      rw [h₁] at hfind
      cases h₂ : db₂.backup_files.find?
          (fun r => r.site_id == site_id && r.file_path == file_path) with
      | none => rw [h₂] at hfind; simp at hfind
      | some e₂ =>
          rw [h₂] at hfind
          simp only [Option.map_some', Option.some.injEq] at hfind
          have hid : e₁.id = e₂.id := congrArg FileRecordContent.id hfind
          simp only [BackupChecksumDB.update_file_record,
            BackupChecksumDB.get_file_record, h₁, h₂]
          refine ⟨?_, by simp [hnext]⟩
          rw [List.map_map, List.map_map]
          have hc₁ : (FileRecord.content ∘ (fun r : FileRecord =>
              if r.id = e₁.id then
                { r with file_name := file_name, file_size := file_size,
                         last_modified := last_modified,
                         checksum_sha256 := checksum,
                         backup_timestamp := now₁, version := r.version + 1 }
              else r))
              = (content_update file_name file_size last_modified checksum
                  e₁.id) ∘ FileRecord.content := by
            funext x
            exact content_of_update_map now₁ file_name file_size
              last_modified checksum e₁.id x
          have hc₂ : (FileRecord.content ∘ (fun r : FileRecord =>
              if r.id = e₂.id then
                { r with file_name := file_name, file_size := file_size,
                         last_modified := last_modified,
                         checksum_sha256 := checksum,
                         backup_timestamp := now₂, version := r.version + 1 }
              else r))
              = (content_update file_name file_size last_modified checksum
                  e₂.id) ∘ FileRecord.content := by
            funext x
            exact content_of_update_map now₂ file_name file_size
              last_modified checksum e₂.id x
          rw [hc₁, hc₂, ← List.map_map, ← List.map_map, hbf, hid]

lemma rebuild_files_content_congr (now₁ now₂ : Int) (site : String)
    (files : List TreeFile) :
    ∀ (d₁ d₂ : BackupChecksumDB),
      d₁.backup_files.map FileRecord.content
        = d₂.backup_files.map FileRecord.content →
      d₁.next_file_id = d₂.next_file_id →
      ((files.foldl (fun d2 f =>
          if SKIP_FILENAMES.contains f.name then d2
          else if SKIP_SUFFIXES.contains (str_lower (path_suffix f.name)) then d2
          else (d2.update_file_record now₁ site f.rel_path f.name
            (f.content.length : Int) (toString f.mtime)
            (SHA256.sha256HexBytes f.content)).1) d₁).backup_files.map
          FileRecord.content
        = (files.foldl (fun d2 f =>
          if SKIP_FILENAMES.contains f.name then d2
          else if SKIP_SUFFIXES.contains (str_lower (path_suffix f.name)) then d2
          else (d2.update_file_record now₂ site f.rel_path f.name
            (f.content.length : Int) (toString f.mtime)
            (SHA256.sha256HexBytes f.content)).1) d₂).backup_files.map
          FileRecord.content)
      ∧ (files.foldl (fun d2 f =>
          if SKIP_FILENAMES.contains f.name then d2
          else if SKIP_SUFFIXES.contains (str_lower (path_suffix f.name)) then d2
          else (d2.update_file_record now₁ site f.rel_path f.name
            (f.content.length : Int) (toString f.mtime)
            (SHA256.sha256HexBytes f.content)).1) d₁).next_file_id
        = (files.foldl (fun d2 f =>
          if SKIP_FILENAMES.contains f.name then d2
          else if SKIP_SUFFIXES.contains (str_lower (path_suffix f.name)) then d2
          else (d2.update_file_record now₂ site f.rel_path f.name
            (f.content.length : Int) (toString f.mtime)
            (SHA256.sha256HexBytes f.content)).1) d₂).next_file_id := by
  induction files with
  | nil => intro d₁ d₂ hbf hnext; exact ⟨hbf, hnext⟩
  | cons f rest ih =>
      intro d₁ d₂ hbf hnext
      simp only [List.foldl_cons]
      by_cases h1 : SKIP_FILENAMES.contains f.name
      · simp only [if_pos h1]
        exact ih d₁ d₂ hbf hnext
      · simp only [if_neg h1]
        by_cases h2 : SKIP_SUFFIXES.contains (str_lower (path_suffix f.name))
        · simp only [if_pos h2]
          exact ih d₁ d₂ hbf hnext
        · simp only [if_neg h2]
          obtain ⟨hbf', hnext'⟩ := update_content_congr now₁ now₂ d₁ d₂ hbf
            hnext site f.rel_path f.name (f.content.length : Int)
            (toString f.mtime) (SHA256.sha256HexBytes f.content)
          exact ih _ _ hbf' hnext'

lemma rebuild_content_congr (now₁ now₂ : Int) (sessions : List SPSession) :
    ∀ (db₁ db₂ : BackupChecksumDB),
      db₁.backup_files.map FileRecord.content
        = db₂.backup_files.map FileRecord.content →
      db₁.next_file_id = db₂.next_file_id →
      ((rebuild_sharepoint_db now₁ sessions db₁).backup_files.map
          FileRecord.content
        = (rebuild_sharepoint_db now₂ sessions db₂).backup_files.map
          FileRecord.content)
      ∧ (rebuild_sharepoint_db now₁ sessions db₁).next_file_id
        = (rebuild_sharepoint_db now₂ sessions db₂).next_file_id := by
  induction sessions with
  | nil => intro db₁ db₂ hbf hnext; exact ⟨hbf, hnext⟩
  | cons sess rest ih =>
      intro db₁ db₂ hbf hnext
      obtain ⟨hbf', hnext'⟩ := rebuild_files_content_congr now₁ now₂
        sess.site_id sess.files db₁ db₂ hbf hnext
      exact ih _ _ hbf' hnext'

/-- ORDER BY (site_id, file_path) on timestamp-stripped rows. -/
def fileOrderLeC (c d : FileRecordContent) : Bool :=
  if c.site_id = d.site_id then c.file_path ≤ d.file_path
  else c.site_id < d.site_id

lemma map_insertSorted {α β : Type} (f : α → β) (le : α → α → Bool)
    (leC : β → β → Bool) (hle : ∀ a b, le a b = leC (f a) (f b)) (x : α) :
    ∀ l : List α,
      (insertSorted le x l).map f = insertSorted leC (f x) (l.map f) := by
  intro l
  induction l with
  | nil => rfl
  | cons y ys ih =>
      simp only [insertSorted, List.map_cons]
      rw [hle x y]
      cases h : leC (f x) (f y) with
      | true => simp [h]
      | false => simp [h, ih]

lemma map_sortByLe {α β : Type} (f : α → β) (le : α → α → Bool)
    (leC : β → β → Bool) (hle : ∀ a b, le a b = leC (f a) (f b)) :
    ∀ l : List α, (sortByLe le l).map f = sortByLe leC (l.map f) := by
  intro l
  induction l with
  | nil => rfl
  | cons y ys ih =>
      simp only [sortByLe, List.foldr_cons, List.map_cons]
      rw [show List.foldr (insertSorted le) [] ys = sortByLe le ys from rfl,
        show List.foldr (insertSorted leC) [] (ys.map f)
          = sortByLe leC (ys.map f) from rfl,
        map_insertSorted f le leC hle y (sortByLe le ys), ih]

/-- C8 counterexample: two rebuild-plus-export runs over the same one-file
tree at wall-clock instants 0 and 1.  The exported ledger documents differ
- the export timestamp (and the record's backup timestamp) embed the wall
clock - so they are not byte-identical. -/
theorem rebuild_determinism_cex :
    ¬ ((rebuild_sharepoint_db 0
          [⟨"site-1", "s", [⟨"/Documents/a.txt", "a.txt", [97], 5⟩]⟩]
          BackupChecksumDB.empty).export_to_json 0 "backup_checksums.db"
        = (rebuild_sharepoint_db 1
          [⟨"site-1", "s", [⟨"/Documents/a.txt", "a.txt", [97], 5⟩]⟩]
          BackupChecksumDB.empty).export_to_json 1 "backup_checksums.db") := by
  decide

/-- C8 amended: rebuild determinism holds for everything except the wall
clock: two reconciliation runs over the same tree, each into a fresh
ledger, export documents that agree on the database path, the full ordered
list of unit records with all content-derived fields (id, key, name, size,
mtime-derived last_modified, checksum, version), and the session rows;
only the export timestamp and per-record backup timestamps, which record
the time of the run, can differ, so byte-identity fails exactly there. -/
theorem rebuild_determinism_amended (sessions : List SPSession)
    (t₁ t₂ : Int) (database_path : String) :
    ((rebuild_sharepoint_db t₁ sessions
        BackupChecksumDB.empty).export_to_json t₁ database_path).content
      = ((rebuild_sharepoint_db t₂ sessions
        BackupChecksumDB.empty).export_to_json t₂ database_path).content := by
  obtain ⟨hbf, _⟩ := rebuild_content_congr t₁ t₂ sessions
    BackupChecksumDB.empty BackupChecksumDB.empty rfl rfl
  have hh₁ := rebuild_sharepoint_db_backup_history t₁ sessions
    BackupChecksumDB.empty
  have hh₂ := rebuild_sharepoint_db_backup_history t₂ sessions
    BackupChecksumDB.empty
  unfold BackupChecksumDB.export_to_json ExportDoc.content
  simp only []
  have hfiles : (sortByLe fileOrderLe
      (rebuild_sharepoint_db t₁ sessions
        BackupChecksumDB.empty).backup_files).map FileRecord.content
      = (sortByLe fileOrderLe
      (rebuild_sharepoint_db t₂ sessions
        BackupChecksumDB.empty).backup_files).map FileRecord.content := by
    rw [map_sortByLe FileRecord.content fileOrderLe fileOrderLeC
        (fun a b => rfl),
      map_sortByLe FileRecord.content fileOrderLe fileOrderLeC
        (fun a b => rfl), hbf]
  rw [hfiles, hh₁, hh₂]
